import Mathlib

/-!
Verification of `scripts/sync_version.py`, the version-synchronization
utility of the xeus-ocaml repository.  The script reads three integer
version components from a C++ header via regular-expression search,
renders them as a dotted string, loads a YAML packaging recipe with
ruamel.yaml in round-trip mode, compares the `context.version` field
(coerced with `str()`) against the header version, and either reports,
fails (check mode), or rewrites the field in place (sync mode).

The embedding models:
  * the regex searches `#define XEUS_OCAML_VERSION_MAJOR\s+(\d+)` (and
    MINOR/PATCH) as a leftmost search over the character list;
  * YAML documents as nested key/comment/value mappings (`YVal`), with a
    deterministic serializer standing for ruamel round-trip output;
  * plain-scalar resolution and Python `str()` for the common scalar
    forms (plain strings, decimal integers, simple decimal floats);
  * the process as a function from a two-file filesystem state to an
    exit code, a resulting state and the printed output, with uncaught
    Python exceptions (KeyError/TypeError from line 52) made explicit.
-/

namespace SyncVersion

set_option maxRecDepth 100000

/-- Path of the C++ header, relative to the project root
(`PROJECT_ROOT / "include" / "xeus_ocaml_config.hpp"`). -/
def HEADER_PATH : String := "include/xeus_ocaml_config.hpp"

/-- Path of the recipe manifest, relative to the project root
(`PROJECT_ROOT / "recipe" / "recipe-prod.yaml"`). -/
def RECIPE_PATH : String := "recipe/recipe-prod.yaml"

/-- Python whitespace characters matched by `\s` (ASCII range). -/
def isPySpace (c : Char) : Bool :=
  (c == ' ') || (c == '\t') || (c == '\n') || (c == '\r') ||
  (c == Char.ofNat 11) || (c == Char.ofNat 12)

/-- ASCII decimal digit, as matched by `\d` on this input class. -/
def isDigitCh (c : Char) : Bool := c.isDigit

/-- Leftmost search for `marker\s+(\d+)`: at each start position, the
literal marker must be followed by one or more whitespace characters and
then one or more digits; the (greedy) digit run is the captured group.
Models `re.search(r"#define ...\s+(\d+)", text)`. -/
def reSearchMarker (marker : List Char) (cs : List Char) : Option (List Char) :=
  match cs with
  | [] => none
  | _ :: tl =>
    if marker.isPrefixOf cs then
      if ((cs.drop marker.length).takeWhile isPySpace).isEmpty
          || (((cs.drop marker.length).dropWhile isPySpace).takeWhile
                isDigitCh).isEmpty then
        reSearchMarker marker tl
      else some (((cs.drop marker.length).dropWhile isPySpace).takeWhile isDigitCh)
    else reSearchMarker marker tl

def MAJOR_MARKER : List Char := "#define XEUS_OCAML_VERSION_MAJOR".data
def MINOR_MARKER : List Char := "#define XEUS_OCAML_VERSION_MINOR".data
def PATCH_MARKER : List Char := "#define XEUS_OCAML_VERSION_PATCH".data

/-- `get_version_from_header`: the header file content is `none` when the
file is missing (FileNotFoundError, re-raised as RuntimeError); otherwise
the three markers are searched and the dotted string
`f"{major}.{minor}.{patch}"` is returned, or a RuntimeError naming the
header path when any search fails. -/
def get_version_from_header (content : Option String) : Except String String :=
  match content with
  | none => .error ("Fichier d\x27en-tête introuvable à : " ++ HEADER_PATH)
  | some text =>
    match reSearchMarker MAJOR_MARKER text.data,
          reSearchMarker MINOR_MARKER text.data,
          reSearchMarker PATCH_MARKER text.data with
    | some a, some b, some c =>
        .ok (String.mk a ++ "." ++ String.mk b ++ "." ++ String.mk c)
    | _, _, _ =>
        .error ("Impossible d\x27analyser la version depuis " ++ HEADER_PATH)

/-! ### Python scalar rendering (`str()` after YAML plain-scalar resolution)

Modelled from the spec: the repository does not vendor ruamel.yaml.  The
spec states the manifest is "loaded with full fidelity" by a
round-trip-preserving YAML library; ruamel resolves plain scalars by the
YAML 1.2 core schema, so a scalar written as decimal digits loads as an
int and one written as a simple decimal (`1.10`) loads as a float, and
`str()` of those values yields the canonical Python rendering ("7",
"1.1").  We model the composite resolve-then-str for plain strings,
decimal integers and simple decimal floats; exotic scalar forms
(hex/octal ints, exponents, booleans, null) are treated as strings. -/

/-- Numeric value of a decimal digit list. -/
def natOfDigits (ds : List Char) : Nat :=
  ds.foldl (fun a c => 10 * a + (c.toNat - 48)) 0

/-- Strip an optional leading sign, returning (isNegative, rest). -/
def stripSign (cs : List Char) : Bool × List Char :=
  match cs with
  | [] => (false, [])
  | c :: t =>
    if c = '-' then (true, t)
    else if c = '+' then (false, t)
    else (false, c :: t)

/-- Decimal integer literal: optional sign then one or more digits. -/
def isIntLit (cs : List Char) : Bool :=
  let t := (stripSign cs).2
  (!t.isEmpty) && t.all isDigitCh

/-- Simple decimal float literal: optional sign, then digits, one dot,
digits, with at least one digit overall. -/
def isFloatLit (cs : List Char) : Bool :=
  let t := (stripSign cs).2
  match t.dropWhile isDigitCh with
  | '.' :: b => b.all isDigitCh && !((t.takeWhile isDigitCh).isEmpty && b.isEmpty)
  | _ => false

/-- Canonical Python rendering of a decimal integer literal. -/
def canonInt (cs : List Char) : String :=
  let (neg, t) := stripSign cs
  let v := natOfDigits t
  if neg && v ≠ 0 then "-" ++ toString v else toString v

/-- Canonical Python rendering of a simple decimal float literal:
leading zeros of the integer part and trailing zeros of the fractional
part are stripped (keeping one digit on each side of the dot). -/
def canonFloat (cs : List Char) : String :=
  let (neg, t) := stripSign cs
  match t.dropWhile isDigitCh with
  | '.' :: b =>
    let ip := (t.takeWhile isDigitCh).dropWhile (· == '0')
    let ip := if ip.isEmpty then ['0'] else ip
    let fp := (b.reverse.dropWhile (· == '0')).reverse
    let fp := if fp.isEmpty then ['0'] else fp
    (if neg then "-" else "") ++ String.mk ip ++ "." ++ String.mk fp
  | _ => String.mk cs

/-- `str(value)` for a plain scalar whose source text is `raw`. -/
def pyStrScalar (raw : String) : String :=
  if isIntLit raw.data then canonInt raw.data
  else if isFloatLit raw.data then canonFloat raw.data
  else raw

/-! ### YAML document model -/

/-- A YAML value as loaded by ruamel in round-trip mode: a plain scalar
(carrying its source text) or a mapping whose entries carry the key, the
attached inline comment (empty when absent) and the value.  Sequences
and other constructs do not occur on the `context.version` access path
of the script and are not modelled. -/
inductive YVal where
  | scalar (raw : String)
  | map (entries : List (String × String × YVal))
deriving Repr

/-- First entry with the given key (Python dict lookup). -/
def lookupKey (k : String) : List (String × String × YVal) → Option YVal
  | [] => none
  | e :: rest => if e.1 = k then some e.2.2 else lookupKey k rest

/-- Uncaught Python exceptions raised by `recipe_data['context']['version']`. -/
inductive PyExc where
  | keyError (k : String)
  | typeError (msg : String)
deriving Repr, DecidableEq

/-- Subscripting `value[k]`: mappings look the key up (KeyError when
absent); indexing a scalar (a Python str) with a string key raises
TypeError. -/
def subscript (v : YVal) (k : String) : Except PyExc YVal :=
  match v with
  | .scalar _ => .error (.typeError "string indices must be integers")
  | .map es =>
    match lookupKey k es with
    | some w => .ok w
    | none => .error (.keyError k)

/-- `recipe_data['context']['version']`, in evaluation order: the
`'context'` lookup runs first and its exception propagates. -/
def getContextVersion (doc : YVal) : Except PyExc YVal :=
  match subscript doc "context" with
  | .error e => .error e
  | .ok ctx => subscript ctx "version"

/-- Replace the value of the first entry with the given key, applying `f`. -/
def modifyKey (k : String) (f : YVal → YVal) :
    List (String × String × YVal) → List (String × String × YVal)
  | [] => []
  | e :: rest =>
    if e.1 = k then (e.1, e.2.1, f e.2.2) :: rest
    else e :: modifyKey k f rest

/-- Setting `['version']` on the context value (a no-op on a scalar,
which is unreachable after a successful read). -/
def setVersionInCtx (hv : String) (ctx : YVal) : YVal :=
  match ctx with
  | .scalar raw => .scalar raw
  | .map cs => .map (modifyKey "version" (fun _ => .scalar hv) cs)

/-- `recipe_data['context']['version'] = hv`: the version entry of the
context mapping is set to the plain string scalar `hv`; everything else
(keys, order, comments, other values) is kept. -/
def setContextVersion (doc : YVal) (hv : String) : YVal :=
  match doc with
  | .scalar raw => .scalar raw
  | .map es => .map (modifyKey "context" (setVersionInCtx hv) es)

mutual

/-- Deterministic serialization of a document, standing for the bytes
ruamel writes in round-trip mode: each entry is rendered as
`key: value  comment` on its own line, nested mappings inline. -/
def serialize : YVal → String
  | .scalar raw => raw
  | .map es => serializeEntries es

/-- Serialization of the entry list of a mapping: one newline-terminated
`key: value  comment` line per entry. -/
def serializeEntries : List (String × String × YVal) → String
  | [] => ""
  | (k, c, v) :: rest =>
      k ++ ": " ++ serialize v ++ c ++ "\n" ++ serializeEntries rest

end

/-- `str()` of a loaded value: scalars render by resolution, mappings as
Python reprs of CommentedMap (never version-equal to a dotted header
string; rendered via the serializer for definiteness). -/
def pyStrVal : YVal → String
  | .scalar raw => pyStrScalar raw
  | .map es => "ordereddict(" ++ serialize (.map es) ++ ")"

/-! ### The process -/

/-- The two files the script touches; `none` models a missing file.  The
manifest is held as its loaded document: ruamel round-trip loading of
bytes the serializer produced yields the same document back. -/
structure FS where
  header : Option String
  manifest : Option YVal
deriving Repr

/-- Result of one process run: exit code, resulting filesystem, and the
lines printed to stdout and stderr. -/
structure RunOut where
  exitCode : Nat
  fs : FS
  stdout : List String
  stderr : List String
deriving Repr

/-- Stderr of an uncaught exception: a Python traceback; its final line
names the exception and the offending key, not the manifest file. -/
def tracebackLines : PyExc → List String
  | .keyError k =>
      ["Traceback (most recent call last):", "KeyError: \x27" ++ k ++ "\x27"]
  | .typeError m =>
      ["Traceback (most recent call last):", "TypeError: " ++ m]

/-- The mismatch diagnostic printed in check mode. -/
def mismatchMsg (hv rv : String) : String :=
  "Erreur : Les versions ne correspondent pas !\n" ++
  "  En-tête (" ++ HEADER_PATH ++ "):    " ++ hv ++ "\n" ++
  "  Recette (" ++ RECIPE_PATH ++ "): " ++ rv ++ "\n" ++
  "Veuillez lancer \x27pixi run sync-version\x27 et committer les changements."

/-- `main(check_only)`: extract the header version (exit 1 with a
message on failure), load the recipe (exit 1 when missing), read and
coerce `context.version` (uncaught exception when absent), then compare
and either report sync, fail the check, or rewrite the field. -/
def pyMain (check_only : Bool) (fs : FS) : RunOut :=
  match get_version_from_header fs.header with
  | .error e => ⟨1, fs, [], ["Erreur : " ++ e]⟩
  | .ok header_version =>
    match fs.manifest with
    | none =>
        ⟨1, fs, [], ["Erreur : Fichier recette introuvable à : " ++ RECIPE_PATH]⟩
    | some recipe_data =>
      match getContextVersion recipe_data with
      | .error exc => ⟨1, fs, [], tracebackLines exc⟩
      | .ok v =>
        if header_version = pyStrVal v then
          ⟨0, fs, ["Les versions sont synchronisées : " ++ header_version], []⟩
        else if check_only then
          ⟨1, fs, [], [mismatchMsg header_version (pyStrVal v)]⟩
        else
          ⟨0, ⟨fs.header, some (setContextVersion recipe_data header_version)⟩,
            ["Mise à jour de la version de la recette de " ++ pyStrVal v ++
              " à " ++ header_version ++ "...", "Terminé."], []⟩

/-- `if __name__ == "__main__"`: check mode holds exactly when the exact
string `"--check"` occurs among the process arguments. -/
def scriptMode (argv : List String) : Bool := argv.contains "--check"

/-- Entry point: `main(check_only="--check" in sys.argv)`. -/
def runScript (argv : List String) (fs : FS) : RunOut :=
  pyMain (scriptMode argv) fs

/-! ### Derived notions used to state the claims -/

/-- The dotted string `f"{major}.{minor}.{patch}"` built from the three
captured digit runs. -/
def dotted (a b c : List Char) : String :=
  String.mk (a ++ '.' :: (b ++ '.' :: c))

/-- The spec's `VersionTriple`: the three captured groups of
`get_version_from_header`, read as integers. -/
def headerTriple (content : Option String) : Option (Nat × Nat × Nat) :=
  match content with
  | none => none
  | some text =>
    match reSearchMarker MAJOR_MARKER text.data,
          reSearchMarker MINOR_MARKER text.data,
          reSearchMarker PATCH_MARKER text.data with
    | some a, some b, some c =>
        some (natOfDigits a, natOfDigits b, natOfDigits c)
    | _, _, _ => none

/-- A text segment the leftmost search for `marker` passes over without
matching: either it contains no `#` at all (markers start with `#`), or
only its first character may be `#` and the marker does not match there,
whatever text follows the segment. -/
def SkipSeg (marker s : List Char) : Prop :=
  ('#' ∉ s) ∨ (s ≠ [] ∧ '#' ∉ s.tail ∧ ∀ r, ¬ marker.isPrefixOf (s ++ r))

/-- The text immediately after a captured digit run must not begin with
a further digit (otherwise the greedy `\d+` would absorb it). -/
def headNotDigit (post : List Char) : Bool :=
  match post with
  | [] => true
  | c :: _ => !isDigitCh c

/-- Substring test (used only to state that diagnostics do or do not
mention a path). -/
def isSubOf (pat : List Char) : List Char → Bool
  | [] => pat.isEmpty
  | c :: rest => pat.isPrefixOf (c :: rest) || isSubOf pat rest

/-! ### Concrete inputs used by witnesses and counterexamples -/

def sampleHeader : String :=
  "#pragma once\n#define XEUS_OCAML_VERSION_MAJOR 1\n" ++
  "#define XEUS_OCAML_VERSION_MINOR 2\n#define XEUS_OCAML_VERSION_PATCH 3\n"

example : get_version_from_header (some sampleHeader) = .ok "1.2.3" := rfl
example : pyStrScalar "1.10" = "1.1" := by decide
example : pyStrScalar "1.2.3" = "1.2.3" := by decide
example : pyStrScalar "007" = "7" := by decide

def sampleDoc : YVal :=
  .map [("context", "", .map [("name", "", .scalar "xeus-ocaml"),
                              ("version", " # keep in sync", .scalar "1.2.3")]),
        ("source", "", .scalar "./")]

/-- Like `sampleDoc` but with a stale version (mismatch scenarios). -/
def staleDoc : YVal :=
  .map [("context", "", .map [("name", "", .scalar "xeus-ocaml"),
                              ("version", " # keep in sync", .scalar "1.0.0")]),
        ("source", "", .scalar "./")]

/-- A recipe whose context mapping has no `version` key. -/
def noVersionDoc : YVal :=
  .map [("context", "", .map [("name", "", .scalar "xeus-ocaml")]),
        ("source", "", .scalar "./")]

/-- A recipe whose version field is the plain scalar `1.10`, resolved by
YAML as the float 1.1. -/
def floatDoc : YVal :=
  .map [("context", "", .map [("version", "", .scalar "1.10")])]

/-- A header whose MAJOR marker is followed by a non-numeric value. -/
def badHeader : String :=
  "#define XEUS_OCAML_VERSION_MAJOR abc\n" ++
  "#define XEUS_OCAML_VERSION_MINOR 2\n#define XEUS_OCAML_VERSION_PATCH 3\n"

/-- A header with the marker lines permuted, odd spacing, and unrelated
surrounding text. -/
def permHeader : String :=
  "// xeus-ocaml version header\n#define XEUS_OCAML_VERSION_PATCH\t \t41\n" ++
  "some unrelated text 99\n#define XEUS_OCAML_VERSION_MAJOR  7\n" ++
  "more text\n#define XEUS_OCAML_VERSION_MINOR 0\n// end\n"

example :
    getContextVersion sampleDoc = .ok (.scalar "1.2.3") := rfl

example :
    (pyMain true ⟨some sampleHeader, some sampleDoc⟩).exitCode = 0 := rfl

example : get_version_from_header (some permHeader) = .ok "7.0.41" := rfl

example : (pyMain true ⟨some sampleHeader, some floatDoc⟩).exitCode = 1 := rfl

/-! ### Branch equations for `pyMain` -/

theorem pyMain_header_error (check : Bool) (fs : FS) (e : String)
    (h : get_version_from_header fs.header = .error e) :
    pyMain check fs = ⟨1, fs, [], ["Erreur : " ++ e]⟩ := by
  unfold pyMain; rw [h]

theorem pyMain_manifest_none (check : Bool) (fs : FS) (hv : String)
    (h1 : get_version_from_header fs.header = .ok hv)
    (h2 : fs.manifest = none) :
    pyMain check fs =
      ⟨1, fs, [], ["Erreur : Fichier recette introuvable à : " ++ RECIPE_PATH]⟩ := by
  unfold pyMain; rw [h1, h2]

theorem pyMain_exc (check : Bool) (fs : FS) (hv : String) (doc : YVal) (exc : PyExc)
    (h1 : get_version_from_header fs.header = .ok hv)
    (h2 : fs.manifest = some doc)
    (h3 : getContextVersion doc = .error exc) :
    pyMain check fs = ⟨1, fs, [], tracebackLines exc⟩ := by
  simp only [pyMain, h1, h2, h3]

theorem pyMain_synced (check : Bool) (fs : FS) (hv : String) (doc v : YVal)
    (h1 : get_version_from_header fs.header = .ok hv)
    (h2 : fs.manifest = some doc)
    (h3 : getContextVersion doc = .ok v)
    (h4 : hv = pyStrVal v) :
    pyMain check fs = ⟨0, fs, ["Les versions sont synchronisées : " ++ hv], []⟩ := by
  simp only [pyMain, h1, h2, h3, h4, if_pos]

theorem pyMain_check_mismatch (fs : FS) (hv : String) (doc v : YVal)
    (h1 : get_version_from_header fs.header = .ok hv)
    (h2 : fs.manifest = some doc)
    (h3 : getContextVersion doc = .ok v)
    (h4 : hv ≠ pyStrVal v) :
    pyMain true fs = ⟨1, fs, [], [mismatchMsg hv (pyStrVal v)]⟩ := by
  simp only [pyMain, h1, h2, h3]; rw [if_neg h4]; simp only [if_true]

theorem pyMain_sync_update (fs : FS) (hv : String) (doc v : YVal)
    (h1 : get_version_from_header fs.header = .ok hv)
    (h2 : fs.manifest = some doc)
    (h3 : getContextVersion doc = .ok v)
    (h4 : hv ≠ pyStrVal v) :
    pyMain false fs =
      ⟨0, ⟨fs.header, some (setContextVersion doc hv)⟩,
        ["Mise à jour de la version de la recette de " ++ pyStrVal v ++
          " à " ++ hv ++ "...", "Terminé."], []⟩ := by
  simp only [pyMain, h1, h2, h3]; rw [if_neg h4]; simp only [Bool.false_eq_true, if_false]

/-! ### Behaviour of the leftmost marker search -/

theorem search_cons_skip (marker : List Char) (c : Char) (tl : List Char)
    (h : marker.isPrefixOf (c :: tl) = false) :
    reSearchMarker marker (c :: tl) = reSearchMarker marker tl := by
  conv_lhs => unfold reSearchMarker
  simp only [h, Bool.false_eq_true, if_false]

theorem search_skip_all (marker : List Char) (pre rest : List Char)
    (h : ∀ i, i < pre.length → marker.isPrefixOf ((pre ++ rest).drop i) = false) :
    reSearchMarker marker (pre ++ rest) = reSearchMarker marker rest := by
  induction pre with
  | nil => rfl
  | cons x tl ih =>
    have h0 : marker.isPrefixOf (x :: (tl ++ rest)) = false := by
      have := h 0 (by simp)
      simpa using this
    rw [List.cons_append, search_cons_skip marker x (tl ++ rest) h0]
    exact ih (fun i hi => by
      have := h (i + 1) (by simp; omega)
      simpa [List.drop_succ_cons] using this)

theorem hash_head_of_isPrefixOf {m' cs : List Char}
    (h : (('#' : Char) :: m').isPrefixOf cs = true) :
    ∃ tl, cs = '#' :: tl := by
  cases cs with
  | nil => simp [List.isPrefixOf] at h
  | cons c tl =>
    simp only [List.isPrefixOf, Bool.and_eq_true, beq_iff_eq] at h
    exact ⟨tl, by rw [← h.1]⟩

theorem no_hash_no_prefix (m' s rest : List Char) (i : Nat) (hi : i < s.length)
    (hs : ('#' : Char) ∉ s) :
    (('#' : Char) :: m').isPrefixOf ((s ++ rest).drop i) = false := by
  cases hp : (('#' : Char) :: m').isPrefixOf ((s ++ rest).drop i) with
  | false => rfl
  | true =>
    exfalso
    obtain ⟨tl, htl⟩ := hash_head_of_isPrefixOf hp
    have hd : (s ++ rest).drop i = s.drop i ++ rest :=
      List.drop_append_of_le_length (le_of_lt hi)
    cases hsd : s.drop i with
    | nil =>
      rw [List.drop_eq_nil_iff] at hsd
      omega
    | cons y ys =>
      have hy : y ∈ s :=
        List.drop_subset i s (by rw [hsd]; exact List.mem_cons_self y ys)
      rw [hd, hsd, List.cons_append] at htl
      have hyh : y = '#' := by
        have := congrArg List.head? htl
        simpa using this
      exact hs (hyh ▸ hy)

/-- The search passes over a `SkipSeg` segment without matching. -/
theorem skipSeg_search (m' : List Char) (s rest : List Char)
    (hs : SkipSeg ('#' :: m') s) :
    reSearchMarker ('#' :: m') (s ++ rest) = reSearchMarker ('#' :: m') rest := by
  apply search_skip_all
  intro i hi
  rcases hs with hnh | ⟨hne, htail, hnp⟩
  · exact no_hash_no_prefix m' s rest i hi hnh
  · cases s with
    | nil => exact absurd rfl hne
    | cons y t =>
      cases i with
      | zero =>
        simp only [List.drop_zero]
        cases hp : (('#' : Char) :: m').isPrefixOf ((y :: t) ++ rest) with
        | false => rfl
        | true => exact absurd hp (hnp rest)
      | succ j =>
        rw [List.cons_append, List.drop_succ_cons]
        have hj : j < t.length := by simpa using hi
        exact no_hash_no_prefix m' t rest j hj (by simpa using htail)

/-- The search passes over any concatenation of `SkipSeg` segments. -/
theorem search_skip_flatten (m' : List Char) (pres : List (List Char))
    (rest : List Char) (h : ∀ s ∈ pres, SkipSeg ('#' :: m') s) :
    reSearchMarker ('#' :: m') (pres.flatten ++ rest) =
      reSearchMarker ('#' :: m') rest := by
  induction pres with
  | nil => rfl
  | cons s t ih =>
    rw [List.flatten_cons, List.append_assoc,
      skipSeg_search m' s (t.flatten ++ rest) (h s (by simp))]
    exact ih (fun u hu => h u (by simp [hu]))

theorem not_prefixOf_other (marker front rest : List Char)
    (hlen : marker.length = front.length) (hne : marker ≠ front) :
    marker.isPrefixOf (front ++ rest) = false := by
  cases hp : marker.isPrefixOf (front ++ rest) with
  | false => rfl
  | true =>
    exfalso
    have hpre := List.isPrefixOf_iff_prefix.mp hp
    have heq := List.prefix_iff_eq_take.mp hpre
    rw [hlen, List.take_left] at heq
    exact hne heq

/-- A line starting with a different marker of the same length is passed
over by the search. -/
theorem skipSeg_of_other_marker (marker other extra : List Char)
    (hlen : marker.length = other.length) (hne : marker ≠ other)
    (hother : other ≠ []) (htail : ('#' : Char) ∉ (other ++ extra).tail) :
    SkipSeg marker (other ++ extra) := by
  right
  refine ⟨by simp [hother], htail, ?_⟩
  intro r hp
  rw [List.append_assoc] at hp
  rw [not_prefixOf_other marker other (extra ++ r) hlen hne] at hp
  simp at hp

theorem not_space_of_digit {c : Char} (h : isDigitCh c = true) :
    isPySpace c = false := by
  cases hsp : isPySpace c with
  | false => rfl
  | true =>
    exfalso
    simp only [isPySpace, Bool.or_eq_true, beq_iff_eq] at hsp
    rcases hsp with ((((h1 | h1) | h1) | h1) | h1) | h1 <;> subst h1 <;>
      exact absurd h (by decide)

theorem takeWhile_append_all {p : Char → Bool} {a : List Char}
    (ha : ∀ c ∈ a, p c = true) {x : Char} (hx : p x = false) (r : List Char) :
    (a ++ x :: r).takeWhile p = a ∧ (a ++ x :: r).dropWhile p = x :: r := by
  induction a with
  | nil => simp [List.takeWhile_cons, List.dropWhile_cons, hx]
  | cons y t ih =>
    have hy : p y = true := ha y (by simp)
    have iht := ih (fun c hc => ha c (by simp [hc]))
    simp [List.takeWhile_cons, List.dropWhile_cons, hy, iht.1, iht.2]

theorem takeWhile_digits {ds post : List Char}
    (hds : ∀ c ∈ ds, isDigitCh c = true) (hpost : headNotDigit post = true) :
    (ds ++ post).takeWhile isDigitCh = ds := by
  induction ds with
  | nil =>
    cases post with
    | nil => rfl
    | cons c r =>
      have hc : isDigitCh c = false := by
        have : (!isDigitCh c) = true := hpost
        simpa using this
      simp [List.takeWhile_cons, hc]
  | cons d t ih =>
    have hd : isDigitCh d = true := hds d (by simp)
    simp [List.takeWhile_cons, hd,
      ih (fun c hc => hds c (by simp [hc]))]

/-- The search succeeds at a genuine marker occurrence: marker, one or
more whitespace characters, one or more digits, and a following text not
starting with a digit; the digit run is captured. -/
theorem search_at_marker (a : Char) (m' ws ds post : List Char)
    (hws : ws ≠ []) (hwsall : ∀ c ∈ ws, isPySpace c = true)
    (hds : ds ≠ []) (hdsall : ∀ c ∈ ds, isDigitCh c = true)
    (hpost : headNotDigit post = true) :
    reSearchMarker (a :: m') ((a :: m') ++ (ws ++ ds ++ post)) = some ds := by
  obtain ⟨d, ds', rfl⟩ : ∃ d ds', ds = d :: ds' := by
    cases ds with
    | nil => exact absurd rfl hds
    | cons d ds' => exact ⟨d, ds', rfl⟩
  have hdd : isDigitCh d = true := hdsall d (by simp)
  have hpre : (a :: m').isPrefixOf
      (a :: (m' ++ (ws ++ (d :: ds') ++ post))) = true :=
    List.isPrefixOf_iff_prefix.mpr
      (by rw [← List.cons_append]; exact List.prefix_append _ _)
  have hdrop : (a :: (m' ++ (ws ++ (d :: ds') ++ post))).drop
      (a :: m').length = ws ++ (d :: ds') ++ post := by
    simp only [List.length_cons, List.drop_succ_cons, List.drop_left]
  have htw : (ws ++ (d :: ds') ++ post).takeWhile isPySpace = ws := by
    rw [List.append_assoc, List.cons_append]
    exact (takeWhile_append_all hwsall (not_space_of_digit hdd) (ds' ++ post)).1
  have hdw : (ws ++ (d :: ds') ++ post).dropWhile isPySpace =
      d :: (ds' ++ post) := by
    rw [List.append_assoc, List.cons_append]
    exact (takeWhile_append_all hwsall (not_space_of_digit hdd) (ds' ++ post)).2
  have htd : (d :: (ds' ++ post)).takeWhile isDigitCh = d :: ds' := by
    rw [← List.cons_append]
    exact takeWhile_digits hdsall hpost
  have hwse : ws.isEmpty = false := by
    cases ws with
    | nil => exact absurd rfl hws
    | cons _ _ => rfl
  rw [List.cons_append]
  unfold reSearchMarker
  simp only [hpre, if_true, hdrop, htw, hdw, htd, hwse]
  simp

/-- Any successful search captures a nonempty run of digits. -/
theorem search_shape {marker cs ds : List Char}
    (h : reSearchMarker marker cs = some ds) :
    ds ≠ [] ∧ ∀ c ∈ ds, isDigitCh c = true := by
  induction cs with
  | nil => simp [reSearchMarker] at h
  | cons x tl ih =>
    unfold reSearchMarker at h
    split at h
    · split at h
      · exact ih h
      · rename_i hcond
        injection h with h
        subst h
        refine ⟨?_, fun c hc => List.mem_takeWhile_imp hc⟩
        intro hnil
        apply hcond
        rw [hnil]
        simp
    · exact ih h

/-- Character-level shape of the version string the script returns. -/
theorem header_ok_shape {t hv : String}
    (h : get_version_from_header (some t) = Except.ok hv) :
    ∃ a b c, hv = dotted a b c ∧
      a ≠ [] ∧ (∀ x ∈ a, isDigitCh x = true) ∧
      b ≠ [] ∧ (∀ x ∈ b, isDigitCh x = true) ∧
      c ≠ [] ∧ (∀ x ∈ c, isDigitCh x = true) := by
  unfold get_version_from_header at h
  dsimp only at h
  split at h
  · rename_i a b c hA hB hC
    injection h with h
    obtain ⟨ha, haall⟩ := search_shape hA
    obtain ⟨hb, hball⟩ := search_shape hB
    obtain ⟨hc, hcall⟩ := search_shape hC
    refine ⟨a, b, c, ?_, ha, haall, hb, hball, hc, hcall⟩
    rw [← h]
    exact (String.ext (by simp [dotted, String.data_append])).symm
  · exact Except.noConfusion h

theorem stripSign_of_digit {x : Char} (hx : isDigitCh x = true) (l : List Char) :
    stripSign (x :: l) = (false, x :: l) := by
  have h1 : ¬ x = '-' := by rintro rfl; exact absurd hx (by decide)
  have h2 : ¬ x = '+' := by rintro rfl; exact absurd hx (by decide)
  simp [stripSign, h1, h2]

theorem isIntLit_dotted_false (a b c : List Char) (ha : a ≠ [])
    (haall : ∀ x ∈ a, isDigitCh x = true) :
    isIntLit (a ++ '.' :: (b ++ '.' :: c)) = false := by
  obtain ⟨x, a', rfl⟩ : ∃ x a', a = x :: a' := by
    cases a with
    | nil => exact absurd rfl ha
    | cons x a' => exact ⟨x, a', rfl⟩
  rw [List.cons_append]
  unfold isIntLit
  rw [stripSign_of_digit (haall x (by simp)) _]
  have hall : ((x :: (a' ++ '.' :: (b ++ '.' :: c))).all isDigitCh) = false := by
    rw [List.all_eq_false]
    exact ⟨'.', by simp, by decide⟩
  simp [hall]

theorem isFloatLit_dotted_false (a b c : List Char) (ha : a ≠ [])
    (haall : ∀ x ∈ a, isDigitCh x = true) :
    isFloatLit (a ++ '.' :: (b ++ '.' :: c)) = false := by
  obtain ⟨x, a', rfl⟩ : ∃ x a', a = x :: a' := by
    cases a with
    | nil => exact absurd rfl ha
    | cons x a' => exact ⟨x, a', rfl⟩
  rw [List.cons_append]
  unfold isFloatLit
  rw [stripSign_of_digit (haall x (by simp)) _]
  have hdw : ((x :: a') ++ '.' :: (b ++ '.' :: c)).dropWhile isDigitCh =
      '.' :: (b ++ '.' :: c) :=
    (takeWhile_append_all haall (by decide) (b ++ '.' :: c)).2
  rw [List.cons_append] at hdw
  have hall : ((b ++ '.' :: c).all isDigitCh) = false := by
    rw [List.all_eq_false]
    exact ⟨'.', by simp, by decide⟩
  simp only [hdw, hall, Bool.false_and]

theorem pyStrScalar_dotted (a b c : List Char) (ha : a ≠ [])
    (haall : ∀ x ∈ a, isDigitCh x = true) :
    pyStrScalar (dotted a b c) = dotted a b c := by
  have hdata : (dotted a b c).data = a ++ '.' :: (b ++ '.' :: c) := rfl
  unfold pyStrScalar
  rw [hdata, isIntLit_dotted_false a b c ha haall,
    isFloatLit_dotted_false a b c ha haall]
  simp

/-- A header-derived version string renders to itself under `str()` after
YAML resolution: it has at least two dots so it stays a plain string. -/
theorem pyStrScalar_header_version {t hv : String}
    (h : get_version_from_header (some t) = Except.ok hv) :
    pyStrScalar hv = hv := by
  obtain ⟨a, b, c, rfl, ha, haall, _⟩ := header_ok_shape h
  exact pyStrScalar_dotted a b c ha haall

/-- The search succeeds on any text that splits into skippable segments
followed by a genuine marker occurrence. -/
theorem search_at_decomposed (marker m' : List Char)
    (hm : marker = '#' :: m')
    (pres : List (List Char)) (ws ds post : List Char) (cs : List Char)
    (hcs : cs = pres.flatten ++ (marker ++ (ws ++ ds ++ post)))
    (hskip : ∀ s ∈ pres, SkipSeg marker s)
    (hws : ws ≠ []) (hwsall : ∀ x ∈ ws, isPySpace x = true)
    (hds : ds ≠ []) (hdsall : ∀ x ∈ ds, isDigitCh x = true)
    (hpost : headNotDigit post = true) :
    reSearchMarker marker cs = some ds := by
  subst hm
  subst hcs
  rw [search_skip_flatten m' pres _ hskip]
  exact search_at_marker '#' m' ws ds post hws hwsall hds hdsall hpost

/-! ### Facts about the document update -/

theorem lookupKey_modifyKey_self (k : String) (f : YVal → YVal)
    (es : List (String × String × YVal)) :
    lookupKey k (modifyKey k f es) = (lookupKey k es).map f := by
  induction es with
  | nil => rfl
  | cons e rest ih =>
    by_cases he : e.1 = k
    · simp [modifyKey, lookupKey, he]
    · simp [modifyKey, lookupKey, he, ih]

/-- After a sync write, re-reading `context.version` yields exactly the
plain string scalar that was written. -/
theorem getContextVersion_set (doc v : YVal) (hv : String)
    (h : getContextVersion doc = .ok v) :
    getContextVersion (setContextVersion doc hv) = .ok (.scalar hv) := by
  cases doc with
  | scalar raw => simp [getContextVersion, subscript] at h
  | map es =>
    cases hc : lookupKey "context" es with
    | none => simp [getContextVersion, subscript, hc] at h
    | some w =>
      cases w with
      | scalar raw => simp [getContextVersion, subscript, hc] at h
      | map cs =>
        cases hver : lookupKey "version" cs with
        | none => simp [getContextVersion, subscript, hc, hver] at h
        | some v0 =>
          simp [getContextVersion, subscript, setContextVersion,
            setVersionInCtx, lookupKey_modifyKey_self, hc, hver]

theorem serializeEntries_modifyKey (k : String) (f : YVal → YVal)
    (es : List (String × String × YVal)) (v : YVal)
    (h : lookupKey k es = some v) :
    ∃ pre post : String,
      serializeEntries es = pre ++ serialize v ++ post ∧
      serializeEntries (modifyKey k f es) = pre ++ serialize (f v) ++ post := by
  induction es with
  | nil => simp [lookupKey] at h
  | cons e rest ih =>
    obtain ⟨k', c', v'⟩ := e
    by_cases he : k' = k
    · have hv : v = v' := by
        simp [lookupKey, he] at h
        exact h.symm
      subst hv
      refine ⟨k' ++ ": ", c' ++ "\n" ++ serializeEntries rest, ?_, ?_⟩
      · simp [serializeEntries, String.append_assoc]
      · simp [modifyKey, he, serializeEntries, String.append_assoc]
    · obtain ⟨pre, post, hp1, hp2⟩ := ih (by
        simpa [lookupKey, he] using h)
      refine ⟨(k' ++ ": " ++ serialize v' ++ c' ++ "\n") ++ pre, post, ?_, ?_⟩
      · simp [serializeEntries, hp1, String.append_assoc]
      · simp [modifyKey, he, serializeEntries, hp2, String.append_assoc]

/-- Byte-level frame property of the sync write: the serialized manifest
splits as `pre ++ <version bytes> ++ post`, and writing the new version
changes exactly the middle part. -/
theorem serialize_setContextVersion (doc v : YVal) (hv : String)
    (h : getContextVersion doc = .ok v) :
    ∃ pre post : String,
      serialize doc = pre ++ serialize v ++ post ∧
      serialize (setContextVersion doc hv) = pre ++ hv ++ post := by
  cases doc with
  | scalar raw => simp [getContextVersion, subscript] at h
  | map es =>
    cases hc : lookupKey "context" es with
    | none => simp [getContextVersion, subscript, hc] at h
    | some w =>
      cases w with
      | scalar raw => simp [getContextVersion, subscript, hc] at h
      | map cs =>
        cases hver : lookupKey "version" cs with
        | none => simp [getContextVersion, subscript, hc, hver] at h
        | some v0 =>
          have hv0 : v0 = v := by
            simp [getContextVersion, subscript, hc, hver] at h
            exact h
          subst hv0
          obtain ⟨pre2, post2, hin1, hin2⟩ :=
            serializeEntries_modifyKey "version" (fun _ => .scalar hv) cs v0 hver
          obtain ⟨pre1, post1, hout1, hout2⟩ :=
            serializeEntries_modifyKey "context" (setVersionInCtx hv)
              es (.map cs) hc
          refine ⟨pre1 ++ pre2, post2 ++ post1, ?_, ?_⟩
          · rw [show serialize (YVal.map es) = serializeEntries es from by
              simp [serialize], hout1]
            rw [show serialize (YVal.map cs) = serializeEntries cs from by
              simp [serialize], hin1]
            simp [String.append_assoc]
          · rw [show serialize (setContextVersion (YVal.map es) hv) =
                serializeEntries (modifyKey "context" (setVersionInCtx hv) es)
                from by simp [setContextVersion, serialize], hout2]
            rw [show setVersionInCtx hv (YVal.map cs) =
                YVal.map (modifyKey "version" (fun _ => .scalar hv) cs)
                from by simp [setVersionInCtx]]
            rw [show serialize
                (YVal.map (modifyKey "version" (fun _ => .scalar hv) cs)) =
                serializeEntries (modifyKey "version" (fun _ => .scalar hv) cs)
                from by simp [serialize], hin2]
            rw [show serialize (YVal.scalar hv) = hv from by simp [serialize]]
            simp [String.append_assoc]

/-! ### Claim theorems -/

/-- Claim C2: for every header text containing the three marker lines —
in any order, with arbitrary whitespace after each marker and arbitrary
unrelated surrounding text (text the search passes over: no `#`
masquerading as a marker start, and nothing extending a captured digit
run) — extraction returns the dotted string of exactly the three digit
runs, i.e. the version triple of the three parsed integers. -/
theorem header_extraction_correct (text : String)
    (pre1 pre2 pre3 : List (List Char))
    (ws1 ds1 post1 ws2 ds2 post2 ws3 ds3 post3 : List Char)
    (h1 : text.data = pre1.flatten ++ (MAJOR_MARKER ++ (ws1 ++ ds1 ++ post1)))
    (h1skip : ∀ s ∈ pre1, SkipSeg MAJOR_MARKER s)
    (h1ws : ws1 ≠ []) (h1wsall : ∀ x ∈ ws1, isPySpace x = true)
    (h1ds : ds1 ≠ []) (h1dsall : ∀ x ∈ ds1, isDigitCh x = true)
    (h1post : headNotDigit post1 = true)
    (h2 : text.data = pre2.flatten ++ (MINOR_MARKER ++ (ws2 ++ ds2 ++ post2)))
    (h2skip : ∀ s ∈ pre2, SkipSeg MINOR_MARKER s)
    (h2ws : ws2 ≠ []) (h2wsall : ∀ x ∈ ws2, isPySpace x = true)
    (h2ds : ds2 ≠ []) (h2dsall : ∀ x ∈ ds2, isDigitCh x = true)
    (h2post : headNotDigit post2 = true)
    (h3 : text.data = pre3.flatten ++ (PATCH_MARKER ++ (ws3 ++ ds3 ++ post3)))
    (h3skip : ∀ s ∈ pre3, SkipSeg PATCH_MARKER s)
    (h3ws : ws3 ≠ []) (h3wsall : ∀ x ∈ ws3, isPySpace x = true)
    (h3ds : ds3 ≠ []) (h3dsall : ∀ x ∈ ds3, isDigitCh x = true)
    (h3post : headNotDigit post3 = true) :
    get_version_from_header (some text) = Except.ok (dotted ds1 ds2 ds3) ∧
    headerTriple (some text) =
      some (natOfDigits ds1, natOfDigits ds2, natOfDigits ds3) := by
  have hs1 : reSearchMarker MAJOR_MARKER text.data = some ds1 :=
    search_at_decomposed MAJOR_MARKER ("define XEUS_OCAML_VERSION_MAJOR".data)
      rfl pre1 ws1 ds1 post1 text.data h1 h1skip h1ws h1wsall h1ds h1dsall h1post
  have hs2 : reSearchMarker MINOR_MARKER text.data = some ds2 :=
    search_at_decomposed MINOR_MARKER ("define XEUS_OCAML_VERSION_MINOR".data)
      rfl pre2 ws2 ds2 post2 text.data h2 h2skip h2ws h2wsall h2ds h2dsall h2post
  have hs3 : reSearchMarker PATCH_MARKER text.data = some ds3 :=
    search_at_decomposed PATCH_MARKER ("define XEUS_OCAML_VERSION_PATCH".data)
      rfl pre3 ws3 ds3 post3 text.data h3 h3skip h3ws h3wsall h3ds h3dsall h3post
  constructor
  · simp only [get_version_from_header, hs1, hs2, hs3]
    exact congrArg Except.ok (String.ext (by simp [dotted, String.data_append]))
  · simp only [headerTriple, hs1, hs2, hs3]

/-- Witness for C2: a header with permuted marker lines (PATCH, MAJOR,
MINOR), tab/space mixtures, and unrelated text (including digits). -/
theorem header_extraction_correct_witness :
    get_version_from_header (some permHeader) =
      Except.ok (dotted "7".data "0".data "41".data) ∧
    headerTriple (some permHeader) =
      some (natOfDigits "7".data, natOfDigits "0".data, natOfDigits "41".data) := by
  exact header_extraction_correct permHeader
    ["// xeus-ocaml version header\n".data,
     PATCH_MARKER ++ "\t \t41".data,
     "\nsome unrelated text 99\n".data]
    ["// xeus-ocaml version header\n".data,
     PATCH_MARKER ++ "\t \t41".data,
     "\nsome unrelated text 99\n".data,
     MAJOR_MARKER ++ "  7".data,
     "\nmore text\n".data]
    ["// xeus-ocaml version header\n".data]
    "  ".data "7".data
    "\nmore text\n#define XEUS_OCAML_VERSION_MINOR 0\n// end\n".data
    " ".data "0".data "\n// end\n".data
    "\t \t".data "41".data
    ("\nsome unrelated text 99\n#define XEUS_OCAML_VERSION_MAJOR  7\n" ++
      "more text\n#define XEUS_OCAML_VERSION_MINOR 0\n// end\n").data
    (by decide)
    (by
      intro s hs
      simp only [List.mem_cons, List.not_mem_nil, or_false] at hs
      rcases hs with rfl | rfl | rfl
      · exact Or.inl (by decide)
      · exact skipSeg_of_other_marker MAJOR_MARKER PATCH_MARKER ("\t \t41".data)
          (by decide) (by decide) (by decide) (by decide)
      · exact Or.inl (by decide))
    (by decide) (by decide) (by decide) (by decide) (by decide)
    (by decide)
    (by
      intro s hs
      simp only [List.mem_cons, List.not_mem_nil, or_false] at hs
      rcases hs with rfl | rfl | rfl | rfl | rfl
      · exact Or.inl (by decide)
      · exact skipSeg_of_other_marker MINOR_MARKER PATCH_MARKER ("\t \t41".data)
          (by decide) (by decide) (by decide) (by decide)
      · exact Or.inl (by decide)
      · exact skipSeg_of_other_marker MINOR_MARKER MAJOR_MARKER ("  7".data)
          (by decide) (by decide) (by decide) (by decide)
      · exact Or.inl (by decide))
    (by decide) (by decide) (by decide) (by decide) (by decide)
    (by decide)
    (by
      intro s hs
      simp only [List.mem_cons, List.not_mem_nil, or_false] at hs
      rcases hs with rfl
      exact Or.inl (by decide))
    (by decide) (by decide) (by decide) (by decide) (by decide)

/-- A successful extraction implies the header file was present. -/
theorem header_some_of_ok {fs : FS} {hv : String}
    (h : get_version_from_header fs.header = Except.ok hv) :
    ∃ t, fs.header = some t ∧
      get_version_from_header (some t) = Except.ok hv := by
  cases hh : fs.header with
  | none =>
    rw [hh] at h
    exact absurd h (by simp [get_version_from_header])
  | some t => exact ⟨t, rfl, hh ▸ h⟩

/-- Claim C1: in sync mode, when versions differ, the run exits 0, sets
`context.version` to the header's dotted string (re-reading the field
afterwards yields exactly that string, which also renders to itself),
and the serialized manifests agree byte-for-byte outside the version
bytes: `serialize doc = pre ++ old ++ post` and the rewritten manifest is
`pre ++ hv ++ post` with the same `pre` and `post`. -/
theorem sync_updates_version_only (fs : FS) (hv : String) (doc v : YVal)
    (h1 : get_version_from_header fs.header = Except.ok hv)
    (h2 : fs.manifest = some doc)
    (h3 : getContextVersion doc = Except.ok v)
    (h4 : hv ≠ pyStrVal v) :
    (pyMain false fs).exitCode = 0 ∧
    (pyMain false fs).fs.header = fs.header ∧
    (pyMain false fs).fs.manifest = some (setContextVersion doc hv) ∧
    getContextVersion (setContextVersion doc hv) = Except.ok (.scalar hv) ∧
    pyStrVal (.scalar hv) = hv ∧
    ∃ pre post : String,
      serialize doc = pre ++ serialize v ++ post ∧
      serialize (setContextVersion doc hv) = pre ++ hv ++ post := by
  obtain ⟨t, ht, hok⟩ := header_some_of_ok h1
  have hrun := pyMain_sync_update fs hv doc v h1 h2 h3 h4
  rw [hrun]
  refine ⟨rfl, rfl, rfl, getContextVersion_set doc v hv h3, ?_,
    serialize_setContextVersion doc v hv h3⟩
  show pyStrScalar hv = hv
  exact pyStrScalar_header_version hok

/-- Witness for C1 at the concrete stale manifest. -/
theorem sync_updates_version_only_witness :
    (pyMain false ⟨some sampleHeader, some staleDoc⟩).exitCode = 0 ∧
    (pyMain false ⟨some sampleHeader, some staleDoc⟩).fs.header =
      (FS.mk (some sampleHeader) (some staleDoc)).header ∧
    (pyMain false ⟨some sampleHeader, some staleDoc⟩).fs.manifest =
      some (setContextVersion staleDoc "1.2.3") ∧
    getContextVersion (setContextVersion staleDoc "1.2.3") =
      Except.ok (.scalar "1.2.3") ∧
    pyStrVal (.scalar "1.2.3") = "1.2.3" ∧
    ∃ pre post : String,
      serialize staleDoc = pre ++ serialize (YVal.scalar "1.0.0") ++ post ∧
      serialize (setContextVersion staleDoc "1.2.3") =
        pre ++ "1.2.3" ++ post :=
  sync_updates_version_only ⟨some sampleHeader, some staleDoc⟩ "1.2.3"
    staleDoc (YVal.scalar "1.0.0") rfl rfl rfl (by decide)

/-- Claim C5: running sync twice with no edits in between leaves the
manifest byte-identical after the second run; when the first run wrote,
the second takes the Synced path (exit 0, synced message, no write). -/
theorem sync_idempotent (fs : FS) (hv : String) (doc v : YVal)
    (h1 : get_version_from_header fs.header = Except.ok hv)
    (h2 : fs.manifest = some doc)
    (h3 : getContextVersion doc = Except.ok v) :
    (pyMain false (pyMain false fs).fs).fs = (pyMain false fs).fs ∧
    (pyMain false (pyMain false fs).fs).exitCode = 0 ∧
    (pyMain false (pyMain false fs).fs).stdout =
      ["Les versions sont synchronisées : " ++ hv] ∧
    (hv ≠ pyStrVal v →
      (pyMain false fs).fs.manifest = some (setContextVersion doc hv)) := by
  obtain ⟨t, ht, hok⟩ := header_some_of_ok h1
  by_cases h4 : hv = pyStrVal v
  · have r1 := pyMain_synced false fs hv doc v h1 h2 h3 h4
    rw [r1]
    dsimp only
    rw [r1]
    exact ⟨rfl, rfl, rfl, fun hne => absurd h4 hne⟩
  · have r1 := pyMain_sync_update fs hv doc v h1 h2 h3 h4
    rw [r1]
    dsimp only
    have hset := getContextVersion_set doc v hv h3
    have hps : hv = pyStrVal (YVal.scalar hv) :=
      (pyStrScalar_header_version hok).symm
    have r2 := pyMain_synced false
      ⟨fs.header, some (setContextVersion doc hv)⟩ hv
      (setContextVersion doc hv) (YVal.scalar hv) h1 rfl hset hps
    rw [r2]
    exact ⟨rfl, rfl, rfl, fun _ => rfl⟩

/-- Witness for C5 at the concrete stale manifest. -/
theorem sync_idempotent_witness :
    (pyMain false (pyMain false ⟨some sampleHeader, some staleDoc⟩).fs).fs =
      (pyMain false ⟨some sampleHeader, some staleDoc⟩).fs ∧
    (pyMain false
      (pyMain false ⟨some sampleHeader, some staleDoc⟩).fs).exitCode = 0 ∧
    (pyMain false (pyMain false ⟨some sampleHeader, some staleDoc⟩).fs).stdout =
      ["Les versions sont synchronisées : " ++ "1.2.3"] ∧
    ("1.2.3" ≠ pyStrVal (YVal.scalar "1.0.0") →
      (pyMain false ⟨some sampleHeader, some staleDoc⟩).fs.manifest =
        some (setContextVersion staleDoc "1.2.3")) :=
  sync_idempotent ⟨some sampleHeader, some staleDoc⟩ "1.2.3" staleDoc
    (YVal.scalar "1.0.0") rfl rfl rfl

/-- Claim C10 (amended): reading `context.version` never raises on a
non-string scalar — `str()` coerces it and the comparison uses the
Python rendering (the YAML float `1.10` renders as `"1.1"`), which can
produce a check-mode mismatch against the source text; but the header's
dotted string always keeps two dots and never resolves as a number, so
when the manifest's version source text equals the header string the
outcome is Synced. -/
theorem version_scalar_coercion (check : Bool) (fs : FS) (hv raw : String)
    (doc : YVal)
    (h1 : get_version_from_header fs.header = Except.ok hv)
    (h2 : fs.manifest = some doc)
    (h3 : getContextVersion doc = Except.ok (.scalar raw)) :
    (hv = pyStrScalar raw →
      pyMain check fs =
        ⟨0, fs, ["Les versions sont synchronisées : " ++ hv], []⟩) ∧
    (hv ≠ pyStrScalar raw → check = true →
      pyMain check fs = ⟨1, fs, [], [mismatchMsg hv (pyStrScalar raw)]⟩) ∧
    (raw = hv →
      pyMain check fs =
        ⟨0, fs, ["Les versions sont synchronisées : " ++ hv], []⟩) ∧
    pyStrScalar "1.10" = "1.1" := by
  obtain ⟨t, ht, hok⟩ := header_some_of_ok h1
  refine ⟨?_, ?_, ?_, by decide⟩
  · intro he
    exact pyMain_synced check fs hv doc (.scalar raw) h1 h2 h3 he
  · intro hne hc
    subst hc
    exact pyMain_check_mismatch fs hv doc (.scalar raw) h1 h2 h3 hne
  · intro hr
    exact pyMain_synced check fs hv doc (.scalar raw) h1 h2 h3
      (by rw [hr]; exact (pyStrScalar_header_version hok).symm)

/-- Witness for C10 at the concrete float-valued manifest. -/
theorem version_scalar_coercion_witness :
    ("1.2.3" = pyStrScalar "1.10" →
      pyMain true ⟨some sampleHeader, some floatDoc⟩ =
        ⟨0, ⟨some sampleHeader, some floatDoc⟩,
          ["Les versions sont synchronisées : " ++ "1.2.3"], []⟩) ∧
    ("1.2.3" ≠ pyStrScalar "1.10" → true = true →
      pyMain true ⟨some sampleHeader, some floatDoc⟩ =
        ⟨1, ⟨some sampleHeader, some floatDoc⟩, [],
          [mismatchMsg "1.2.3" (pyStrScalar "1.10")]⟩) ∧
    ("1.10" = "1.2.3" →
      pyMain true ⟨some sampleHeader, some floatDoc⟩ =
        ⟨0, ⟨some sampleHeader, some floatDoc⟩,
          ["Les versions sont synchronisées : " ++ "1.2.3"], []⟩) ∧
    pyStrScalar "1.10" = "1.1" :=
  version_scalar_coercion true ⟨some sampleHeader, some floatDoc⟩
    "1.2.3" "1.10" floatDoc rfl rfl rfl

/-- Counterexample for C10 as stated: a mismatch can never arise when the
manifest's version source text equals the header's dotted string, because
that string (it has two dots) never resolves as a number and renders to
itself under the coercion. -/
theorem version_scalar_coercion_counterexample :
    ¬ ∃ (t hv raw : String),
      get_version_from_header (some t) = Except.ok hv ∧
      raw = hv ∧ hv ≠ pyStrScalar raw := by
  rintro ⟨t, hv, raw, h1, rfl, hne⟩
  exact hne (pyStrScalar_header_version h1).symm

/-- Claim C3: in check mode the manifest (indeed the whole filesystem) is
never written, whatever the inputs; when both versions load and differ,
the outcome is the mismatch diagnostic with exit code 1 and no write. -/
theorem check_mode_readonly (fs : FS) :
    (pyMain true fs).fs = fs ∧
    (∀ hv doc v, get_version_from_header fs.header = Except.ok hv →
      fs.manifest = some doc → getContextVersion doc = Except.ok v →
      hv ≠ pyStrVal v →
      (pyMain true fs).exitCode = 1 ∧
      (pyMain true fs).stderr = [mismatchMsg hv (pyStrVal v)]) := by
  constructor
  · cases h1 : get_version_from_header fs.header with
    | error e => rw [pyMain_header_error true fs e h1]
    | ok hv =>
      cases h2 : fs.manifest with
      | none => rw [pyMain_manifest_none true fs hv h1 h2]
      | some doc =>
        cases h3 : getContextVersion doc with
        | error exc => rw [pyMain_exc true fs hv doc exc h1 h2 h3]
        | ok v =>
          by_cases h4 : hv = pyStrVal v
          · rw [pyMain_synced true fs hv doc v h1 h2 h3 h4]
          · rw [pyMain_check_mismatch fs hv doc v h1 h2 h3 h4]
  · intro hv doc v h1 h2 h3 h4
    rw [pyMain_check_mismatch fs hv doc v h1 h2 h3 h4]
    exact ⟨rfl, rfl⟩

/-- Witness for C3 at a concrete mismatched state. -/
theorem check_mode_readonly_witness :
    (pyMain true ⟨some sampleHeader, some staleDoc⟩).fs =
      ⟨some sampleHeader, some staleDoc⟩ ∧
    (pyMain true ⟨some sampleHeader, some staleDoc⟩).exitCode = 1 ∧
    (pyMain true ⟨some sampleHeader, some staleDoc⟩).stderr =
      [mismatchMsg "1.2.3" (pyStrVal (YVal.scalar "1.0.0"))] :=
  ⟨(check_mode_readonly ⟨some sampleHeader, some staleDoc⟩).1,
   ((check_mode_readonly ⟨some sampleHeader, some staleDoc⟩).2 "1.2.3" staleDoc
      (YVal.scalar "1.0.0") rfl rfl rfl (by decide)).1,
   ((check_mode_readonly ⟨some sampleHeader, some staleDoc⟩).2 "1.2.3" staleDoc
      (YVal.scalar "1.0.0") rfl rfl rfl (by decide)).2⟩

/-- Claim C6: on every run that exits with code 1 (missing header, parse
failure, missing manifest, schema failure, check-mode mismatch) the
filesystem — in particular the manifest — is left untouched. -/
theorem error_paths_leave_manifest_untouched (check : Bool) (fs : FS)
    (h : (pyMain check fs).exitCode = 1) :
    (pyMain check fs).fs = fs := by
  cases h1 : get_version_from_header fs.header with
  | error e => rw [pyMain_header_error check fs e h1]
  | ok hv =>
    cases h2 : fs.manifest with
    | none => rw [pyMain_manifest_none check fs hv h1 h2]
    | some doc =>
      cases h3 : getContextVersion doc with
      | error exc => rw [pyMain_exc check fs hv doc exc h1 h2 h3]
      | ok v =>
        by_cases h4 : hv = pyStrVal v
        · rw [pyMain_synced check fs hv doc v h1 h2 h3 h4]
        · cases check with
          | true => rw [pyMain_check_mismatch fs hv doc v h1 h2 h3 h4]
          | false =>
            rw [pyMain_sync_update fs hv doc v h1 h2 h3 h4] at h
            simp at h

/-- Witness for C6 at a concrete failing (check-mode mismatch) state. -/
theorem error_paths_leave_manifest_untouched_witness :
    (pyMain true ⟨some sampleHeader, some staleDoc⟩).exitCode = 1 ∧
    (pyMain true ⟨some sampleHeader, some staleDoc⟩).fs =
      ⟨some sampleHeader, some staleDoc⟩ :=
  ⟨rfl, error_paths_leave_manifest_untouched true ⟨some sampleHeader, some staleDoc⟩ rfl⟩

/-- Claim C7: in either mode, when the header dotted string equals the
(coerced) manifest version, the outcome is Synced: exit code 0, no write,
and the synchronized message. -/
theorem equal_versions_synced (check : Bool) (fs : FS) (hv : String) (doc v : YVal)
    (h1 : get_version_from_header fs.header = Except.ok hv)
    (h2 : fs.manifest = some doc)
    (h3 : getContextVersion doc = Except.ok v)
    (h4 : hv = pyStrVal v) :
    (pyMain check fs).exitCode = 0 ∧ (pyMain check fs).fs = fs ∧
    (pyMain check fs).stdout = ["Les versions sont synchronisées : " ++ hv] := by
  rw [pyMain_synced check fs hv doc v h1 h2 h3 h4]
  exact ⟨rfl, rfl, rfl⟩

/-- Witness for C7 at the matched sample state. -/
theorem equal_versions_synced_witness :
    (pyMain true ⟨some sampleHeader, some sampleDoc⟩).exitCode = 0 ∧
    (pyMain true ⟨some sampleHeader, some sampleDoc⟩).fs =
      ⟨some sampleHeader, some sampleDoc⟩ ∧
    (pyMain true ⟨some sampleHeader, some sampleDoc⟩).stdout =
      ["Les versions sont synchronisées : " ++ "1.2.3"] :=
  equal_versions_synced true ⟨some sampleHeader, some sampleDoc⟩ "1.2.3"
    sampleDoc (YVal.scalar "1.2.3") rfl rfl rfl rfl

/-- Claim C9: the program runs in check mode iff the exact string
`"--check"` appears among the arguments; any other argument is ignored
(two argument vectors agreeing on the presence of `"--check"` behave
identically). -/
theorem check_flag_selects_mode (argv argv2 : List String) (fs : FS)
    (h : "--check" ∈ argv ↔ "--check" ∈ argv2) :
    (scriptMode argv = true ↔ "--check" ∈ argv) ∧
    runScript argv fs = pyMain (scriptMode argv) fs ∧
    runScript argv fs = runScript argv2 fs := by
  have hm : ∀ l : List String, scriptMode l = true ↔ "--check" ∈ l := by
    intro l
    simp [scriptMode]
  refine ⟨hm argv, rfl, ?_⟩
  have hb : scriptMode argv = scriptMode argv2 := by
    have h2 : (scriptMode argv = true) ↔ (scriptMode argv2 = true) :=
      (hm argv).trans (h.trans (hm argv2).symm)
    cases ha : scriptMode argv <;> cases hc : scriptMode argv2 <;> simp_all
  unfold runScript
  rw [hb]

/-- Keys of the uncaught KeyError raised by line 52 are the literal
subscripts of the script. -/
theorem getContextVersion_keyError_cases (doc : YVal) (k : String)
    (h : getContextVersion doc = .error (.keyError k)) :
    k = "context" ∨ k = "version" := by
  cases doc with
  | scalar raw => simp [getContextVersion, subscript] at h
  | map es =>
    cases hc : lookupKey "context" es with
    | none =>
      simp [getContextVersion, subscript, hc] at h
      exact Or.inl h.symm
    | some w =>
      cases w with
      | scalar raw => simp [getContextVersion, subscript, hc] at h
      | map cs =>
        cases hv : lookupKey "version" cs with
        | none =>
          simp [getContextVersion, subscript, hc, hv] at h
          exact Or.inr h.symm
        | some v => simp [getContextVersion, subscript, hc, hv] at h

/-- Claim C4 (amended): when the manifest loads but the `context.version`
path is absent, the run terminates with exit code 1 and the manifest
untouched, but via an uncaught KeyError whose traceback names only the
missing key — no handled SchemaError message identifying the manifest
file is produced. -/
theorem missing_version_uncaught (check : Bool) (fs : FS) (hv : String)
    (doc : YVal) (k : String)
    (h1 : get_version_from_header fs.header = Except.ok hv)
    (h2 : fs.manifest = some doc)
    (h3 : getContextVersion doc = Except.error (.keyError k)) :
    pyMain check fs = ⟨1, fs, [],
      ["Traceback (most recent call last):", "KeyError: \x27" ++ k ++ "\x27"]⟩ ∧
    (k = "context" ∨ k = "version") ∧
    ∀ line ∈ (pyMain check fs).stderr,
      isSubOf RECIPE_PATH.data line.data = false := by
  have hk := getContextVersion_keyError_cases doc k h3
  have hrun := pyMain_exc check fs hv doc (.keyError k) h1 h2 h3
  refine ⟨hrun, hk, ?_⟩
  rw [hrun]
  rcases hk with hk | hk <;> subst hk <;> intro line hline <;>
    fin_cases hline <;> decide

/-- Witness for C4 (amended) at a concrete manifest lacking the key. -/
theorem missing_version_uncaught_witness :
    pyMain false ⟨some sampleHeader, some noVersionDoc⟩ =
      ⟨1, ⟨some sampleHeader, some noVersionDoc⟩, [],
        ["Traceback (most recent call last):",
         "KeyError: \x27" ++ "version" ++ "\x27"]⟩ ∧
    ("version" = "context" ∨ "version" = "version") ∧
    ∀ line ∈ (pyMain false ⟨some sampleHeader, some noVersionDoc⟩).stderr,
      isSubOf RECIPE_PATH.data line.data = false :=
  missing_version_uncaught false ⟨some sampleHeader, some noVersionDoc⟩
    "1.2.3" noVersionDoc "version" rfl rfl rfl

/-- Counterexample for C4 as stated: the version key being absent does
exit non-zero, but the diagnostic is an uncaught KeyError traceback; no
line of it identifies the offending manifest file. -/
theorem missing_version_counterexample :
    (pyMain false ⟨some sampleHeader, some noVersionDoc⟩).exitCode = 1 ∧
    (pyMain false ⟨some sampleHeader, some noVersionDoc⟩).stderr =
      ["Traceback (most recent call last):", "KeyError: \x27version\x27"] ∧
    ∀ line ∈ (pyMain false ⟨some sampleHeader, some noVersionDoc⟩).stderr,
      isSubOf RECIPE_PATH.data line.data = false := by
  refine ⟨rfl, rfl, ?_⟩
  decide

/-- Claim C8: a missing header file, or any marker absent or followed by
a non-numeric value, makes extraction fail with no partial result; the
process exits with code 1, leaves the filesystem untouched, and the
message names the header path. -/
theorem extraction_failure_fatal (check : Bool) (fs : FS)
    (h : fs.header = none ∨ ∃ t, fs.header = some t ∧
      (reSearchMarker MAJOR_MARKER t.data = none ∨
       reSearchMarker MINOR_MARKER t.data = none ∨
       reSearchMarker PATCH_MARKER t.data = none)) :
    ∃ e, get_version_from_header fs.header = Except.error e ∧
      isSubOf HEADER_PATH.data e.data = true ∧
      pyMain check fs = ⟨1, fs, [], ["Erreur : " ++ e]⟩ := by
  have herr : ∃ e, get_version_from_header fs.header = Except.error e ∧
      isSubOf HEADER_PATH.data e.data = true := by
    rcases h with hnone | ⟨t, ht, hsearch⟩
    · exact ⟨"Fichier d\x27en-tête introuvable à : " ++ HEADER_PATH,
        by rw [hnone]; rfl, by decide⟩
    · refine ⟨"Impossible d\x27analyser la version depuis " ++ HEADER_PATH,
        ?_, by decide⟩
      rw [ht]
      unfold get_version_from_header
      rcases hA : reSearchMarker MAJOR_MARKER t.data with _ | a <;>
        rcases hB : reSearchMarker MINOR_MARKER t.data with _ | b <;>
          rcases hC : reSearchMarker PATCH_MARKER t.data with _ | c <;>
            simp_all
  rcases herr with ⟨e, he, hinf⟩
  exact ⟨e, he, hinf, pyMain_header_error check fs e he⟩

/-- Witness for C8: MAJOR marker followed by a non-numeric value. -/
theorem extraction_failure_fatal_witness :
    ∃ e, get_version_from_header
        (FS.mk (some badHeader) (some sampleDoc)).header = Except.error e ∧
      isSubOf HEADER_PATH.data e.data = true ∧
      pyMain false (FS.mk (some badHeader) (some sampleDoc)) =
        ⟨1, FS.mk (some badHeader) (some sampleDoc), [], ["Erreur : " ++ e]⟩ :=
  extraction_failure_fatal false ⟨some badHeader, some sampleDoc⟩
    (Or.inr ⟨badHeader, rfl, Or.inl rfl⟩)

/-- Witness for C9: an unrecognized `--verbose` flag is ignored. -/
theorem check_flag_selects_mode_witness :
    (scriptMode ["scripts/sync_version.py", "--check"] = true ↔
      "--check" ∈ ["scripts/sync_version.py", "--check"]) ∧
    runScript ["scripts/sync_version.py", "--check"] ⟨none, none⟩ =
      pyMain (scriptMode ["scripts/sync_version.py", "--check"]) ⟨none, none⟩ ∧
    runScript ["scripts/sync_version.py", "--check"] ⟨none, none⟩ =
      runScript ["scripts/sync_version.py", "--verbose", "--check"] ⟨none, none⟩ :=
  check_flag_selects_mode ["scripts/sync_version.py", "--check"]
    ["scripts/sync_version.py", "--verbose", "--check"] ⟨none, none⟩ (by decide)

end SyncVersion
